import Mathlib

/-!
Verification of the vanity-address search program (`src/main.rs`).

The program brute-forces Solana keypairs until the textual address matches a
caller-supplied pattern at the start and/or the end, under a configurable case
policy.  Addresses are base-58 ASCII text, and the Rust code compares bytes, so
strings are embedded as lists of byte values (`List Nat`).
-/

namespace VanityAddress

/-- Byte strings: Rust `&str`/`String` values viewed as their byte sequence. -/
abbrev Str := List Nat

/-- Embed an ASCII Lean string literal as its byte sequence. -/
def strBytes (s : String) : Str := s.data.map Char.toNat

/-- Rust `u8::is_ascii_uppercase`. -/
def isAsciiUppercase (b : Nat) : Bool := 65 ≤ b && b ≤ 90

/-- Rust `u8::is_ascii_lowercase`. -/
def isAsciiLowercase (b : Nat) : Bool := 97 ≤ b && b ≤ 122

/-- Rust `u8::to_ascii_lowercase`. -/
def toAsciiLowercase (b : Nat) : Nat := if isAsciiUppercase b then b + 32 else b

/-- Rust `u8::to_ascii_uppercase`. -/
def toAsciiUppercase (b : Nat) : Nat := if isAsciiLowercase b then b - 32 else b

/-- Rust `str::eq_ignore_ascii_case`: equal lengths and pairwise equality after
ASCII lower-casing. -/
def eqIgnoreAsciiCase (x y : Str) : Bool :=
  x.length == y.length &&
    (List.zip x y).all fun p => toAsciiLowercase p.1 == toAsciiLowercase p.2

/-- `OptimizedPattern` from `src/main.rs` lines 51-58.  The field names follow
the Rust struct. -/
structure OptimizedPattern where
  exact : Str
  upper : Str
  lower : Str
  case_mode : String
  pattern_len : Nat
deriving DecidableEq

/-- `OptimizedPattern::new` (lines 60-73).  `to_uppercase`/`to_lowercase` are
modelled ASCII-only, which agrees with Rust on the base-58 ASCII alphabet; the
`upper` and `lower` fields are never read by the matchers. -/
def OptimizedPattern.new (pattern : Str) (case_mode : String) : OptimizedPattern :=
  { exact := pattern
    upper := pattern.map toAsciiUppercase
    lower := pattern.map toAsciiLowercase
    case_mode := case_mode
    pattern_len := pattern.length }

/-- `OptimizedPattern::matches_mixed_case` (lines 121-165): at every position a
pattern byte that is ASCII uppercase forces an uppercase candidate byte, a
lowercase pattern byte forces a lowercase candidate byte; other pattern bytes
are unconstrained. -/
def OptimizedPattern.matchesMixedCase (p : OptimizedPattern) (slice : Str) : Bool :=
  if slice.length != p.pattern_len then false
  else
    (List.range p.pattern_len).all fun i =>
      let pc := p.exact.getD i 0
      let tc := slice.getD i 0
      (!(isAsciiUppercase pc && !isAsciiUppercase tc)) &&
        (!(isAsciiLowercase pc && !isAsciiLowercase tc))

/-- `OptimizedPattern::matches` (lines 76-96): fast-reject short candidates,
then compare the leading `pattern_len` bytes according to `case_mode`. -/
def OptimizedPattern.matches (p : OptimizedPattern) (text : Str) : Bool :=
  if text.length < p.pattern_len then false
  else
    let slice := text.take p.pattern_len
    match p.case_mode with
    | "exact" => slice == p.exact
    | "upper" => eqIgnoreAsciiCase slice p.exact
    | "lower" => eqIgnoreAsciiCase slice p.exact
    | "mixed" => p.matchesMixedCase slice
    | _ => slice == p.exact

/-- `OptimizedPattern::matches_suffix` (lines 99-119): fast-reject short
candidates, then compare the trailing `pattern_len` bytes according to
`case_mode`. -/
def OptimizedPattern.matchesSuffix (p : OptimizedPattern) (text : Str) : Bool :=
  if text.length < p.pattern_len then false
  else
    let slice := text.drop (text.length - p.pattern_len)
    match p.case_mode with
    | "exact" => slice == p.exact
    | "upper" => eqIgnoreAsciiCase slice p.exact
    | "lower" => eqIgnoreAsciiCase slice p.exact
    | "mixed" => p.matchesMixedCase slice
    | _ => slice == p.exact

/-- Rust `str::starts_with` with a string pattern: the pattern's bytes are a
prefix of the text's bytes. -/
def rustStartsWith (s pat : Str) : Bool := pat.isPrefixOf s

/-- Rust `str::ends_with` with a string pattern: the pattern's bytes are a
suffix of the text's bytes. -/
def rustEndsWith (s pat : Str) : Bool := pat.isSuffixOf s

/-- The parsed CLI arguments (`Args`, lines 11-49).  The optional prefix
argument is called `pfx` and the suffix `sfx`. -/
structure Args where
  pfx : Option Str
  sfx : Str
  threads : Nat
  case_sensitive : Bool
  max_attempts : Nat
  case_mode : String
  chunk_size : Nat
  output : String
  clear_output : Bool

/-- The validation at lines 255-259: `main` exits with status 1 exactly when
`args.prefix.is_none() && args.suffix.is_empty()`, before any search work. -/
def validationRejects (a : Args) : Bool := a.pfx.isNone && a.sfx.isEmpty

/-- `optimized_prefix` (lines 306-310): a compiled pattern for the prefix
argument when one was supplied. -/
def optimizedPfx (a : Args) : Option OptimizedPattern :=
  match a.pfx with
  | some p => some (OptimizedPattern.new p a.case_mode)
  | none => none

/-- `optimized_suffix` (lines 300-304): a compiled pattern for the suffix
argument when it is non-empty. -/
def optimizedSfx (a : Args) : Option OptimizedPattern :=
  if a.sfx ≠ [] then some (OptimizedPattern.new a.sfx a.case_mode) else none

/-- The per-candidate acceptance test of the worker loop (lines 392-421):
either the case-sensitive bypass (`starts_with`/`ends_with`) or the compiled
matchers, with an absent prefix / empty suffix contributing `true`. -/
def addressMatches (a : Args) (address : Str) : Bool :=
  if a.case_sensitive then
    (match a.pfx with
     | some p => rustStartsWith address p
     | none => true) &&
      (if a.sfx ≠ [] then rustEndsWith address a.sfx else true)
  else
    (match optimizedPfx a with
     | some op => op.matches address
     | none => true) &&
      (match optimizedSfx a with
       | some os => os.matchesSuffix address
       | none => true)

/-- The prefix component of the acceptance test, for the path selected by
`case_sensitive`; `true` when no prefix was supplied. -/
def pfxTest (a : Args) (address : Str) : Bool :=
  match a.pfx with
  | some p =>
      if a.case_sensitive then rustStartsWith address p
      else (OptimizedPattern.new p a.case_mode).matches address
  | none => true

/-- The suffix component of the acceptance test, for the path selected by
`case_sensitive`. -/
def sfxTest (a : Args) (address : Str) : Bool :=
  if a.case_sensitive then rustEndsWith address a.sfx
  else (OptimizedPattern.new a.sfx a.case_mode).matchesSuffix address

/-- What one worker closure (lines 376-477) produced when it returned:
the boolean handed to `find_any` (both exits return `true`), whether
`save_to_json` was invoked, the shared `attempts` counter after the worker's
last write, and the published address if any. -/
structure WorkerResult where
  closureReturn : Bool
  savedToJson : Bool
  globalAttempts : Nat
  foundAddress : Option Str
deriving DecidableEq

/-- One worker closure of the `find_any` loop (lines 376-477), deterministic in
the candidate stream `gen` (the `n`-th generated address is `gen n`).  `fuel`
bounds the unrolling; `none` means the loop did not exit within `fuel`
iterations.  Per iteration: increment `local_attempts`; if
`max_attempts > 0 && local_attempts >= max_attempts` return `true` with no
flush and no save; otherwise generate and test a candidate; on a match flush
`local_attempts` into the shared counter, call `save_to_json`, and return
`true`; otherwise flush 50000 into the shared counter when
`local_attempts % 50000 == 0` and continue.  The loop body reads no stop flag
and no shared found-state. -/
def workerRun (a : Args) (gen : Nat → Str) :
    Nat → Nat → Nat → Option WorkerResult
  | 0, _, _ => none
  | fuel + 1, localAttempts, globalAttempts =>
    let la := localAttempts + 1
    if 0 < a.max_attempts ∧ a.max_attempts ≤ la then
      some { closureReturn := true, savedToJson := false
             globalAttempts := globalAttempts, foundAddress := none }
    else
      let address := gen localAttempts
      if addressMatches a address then
        some { closureReturn := true, savedToJson := true
               globalAttempts := globalAttempts + la, foundAddress := some address }
      else
        workerRun a gen fuel la
          (if la % 50000 == 0 then globalAttempts + 50000 else globalAttempts)

/-- Line 479: `main` prints the success banner
("Vanity address found successfully!") exactly when `find_any` returned
`Some`, i.e. when some worker closure returned `true`; otherwise it prints
"Search completed without finding a match" (lines 481-485). -/
def mainPrintsFoundBanner (r : Option WorkerResult) : Bool := r.isSome

/-- Number of `save_to_json` invocations across a list of finished workers. -/
def countSaves (rs : List (Option WorkerResult)) : Nat :=
  rs.foldl
    (fun n r =>
      match r with
      | some w => if w.savedToJson then n + 1 else n
      | none => n) 0

/-- A bounded run with suffix "pump" in the case-sensitive exact path:
`--suffix pump --case-sensitive --max-attempts 5 --threads 1`. -/
def c1Args : Args :=
  { pfx := none, sfx := strBytes "pump", threads := 1, case_sensitive := true
    max_attempts := 5, case_mode := "exact", chunk_size := 10000
    output := "data.json", clear_output := false }

/-- A candidate stream that never matches suffix "pump". -/
def c1Gen : Nat → Str := fun _ => strBytes "1111"

/-- A configuration with a supplied empty-string prefix and an empty suffix:
`--prefix "" --suffix ""`. -/
def c8Args : Args :=
  { pfx := some [], sfx := [], threads := 0, case_sensitive := false
    max_attempts := 0, case_mode := "exact", chunk_size := 10000
    output := "data.json", clear_output := false }

/-- An unbounded two-worker run with suffix "pump" in the case-sensitive exact
path. -/
def c9Args : Args :=
  { pfx := none, sfx := strBytes "pump", threads := 2, case_sensitive := true
    max_attempts := 0, case_mode := "exact", chunk_size := 10000
    output := "data.json", clear_output := false }

/-- Worker A's candidate stream: its first candidate already matches. -/
def c9GenA : Nat → Str := fun _ => strBytes "xxxxpump"

/-- Worker B's candidate stream: its first candidate already matches. -/
def c9GenB : Nat → Str := fun _ => strBytes "yyyypump"

/-! ## Helper lemmas about the matchers -/

/-- In `exact` mode, `matches` is the guard plus byte equality of the leading
slice. -/
theorem matches_exact_def (pat cand : Str) :
    (OptimizedPattern.new pat "exact").matches cand =
      if cand.length < pat.length then false else cand.take pat.length == pat := rfl

/-- In `exact` mode, `matchesSuffix` is the guard plus byte equality of the
trailing slice. -/
theorem matchesSuffix_exact_def (pat cand : Str) :
    (OptimizedPattern.new pat "exact").matchesSuffix cand =
      if cand.length < pat.length then false
      else cand.drop (cand.length - pat.length) == pat := rfl

/-- In `upper` mode, `matches` is the guard plus ASCII case-insensitive
equality of the leading slice. -/
theorem matches_upper_def (pat cand : Str) :
    (OptimizedPattern.new pat "upper").matches cand =
      if cand.length < pat.length then false
      else eqIgnoreAsciiCase (cand.take pat.length) pat := rfl

/-- In `lower` mode, `matches` computes the same expression as `upper` mode. -/
theorem matches_lower_def (pat cand : Str) :
    (OptimizedPattern.new pat "lower").matches cand =
      if cand.length < pat.length then false
      else eqIgnoreAsciiCase (cand.take pat.length) pat := rfl

/-- In `upper` mode, `matchesSuffix` is the guard plus ASCII case-insensitive
equality of the trailing slice. -/
theorem matchesSuffix_upper_def (pat cand : Str) :
    (OptimizedPattern.new pat "upper").matchesSuffix cand =
      if cand.length < pat.length then false
      else eqIgnoreAsciiCase (cand.drop (cand.length - pat.length)) pat := rfl

/-- In `lower` mode, `matchesSuffix` computes the same expression as `upper`
mode. -/
theorem matchesSuffix_lower_def (pat cand : Str) :
    (OptimizedPattern.new pat "lower").matchesSuffix cand =
      if cand.length < pat.length then false
      else eqIgnoreAsciiCase (cand.drop (cand.length - pat.length)) pat := rfl

/-- `isPrefixOf` agrees with taking the leading slice and comparing. -/
theorem take_beq_eq_isPrefixOf (pat cand : Str) :
    (cand.take pat.length == pat) = pat.isPrefixOf cand := by
  rw [Bool.eq_iff_iff, beq_iff_eq, List.isPrefixOf_iff_prefix, List.prefix_iff_eq_take]
  exact ⟨fun h => h.symm, fun h => h.symm⟩

/-- `isSuffixOf` agrees with taking the trailing slice and comparing. -/
theorem drop_beq_eq_isSuffixOf (pat cand : Str) :
    (cand.drop (cand.length - pat.length) == pat) = pat.isSuffixOf cand := by
  rw [Bool.eq_iff_iff, beq_iff_eq, List.isSuffixOf_iff_suffix, List.suffix_iff_eq_drop]
  exact ⟨fun h => h.symm, fun h => h.symm⟩

/-- A pattern longer than the candidate is never a prefix of it. -/
theorem isPrefixOf_eq_false_of_lt (pat cand : Str) (h : cand.length < pat.length) :
    pat.isPrefixOf cand = false := by
  rw [Bool.eq_false_iff]
  intro hp
  rw [List.isPrefixOf_iff_prefix] at hp
  exact absurd hp.length_le (Nat.not_le_of_lt h)

/-- A pattern longer than the candidate is never a suffix of it. -/
theorem isSuffixOf_eq_false_of_lt (pat cand : Str) (h : cand.length < pat.length) :
    pat.isSuffixOf cand = false := by
  rw [Bool.eq_false_iff]
  intro hp
  rw [List.isSuffixOf_iff_suffix] at hp
  exact absurd hp.length_le (Nat.not_le_of_lt h)

/-- The per-position test of `matches_mixed_case`, as an iff over the four
involved Booleans. -/
theorem shapeByte_iff : ∀ a b c d : Bool,
    ((!(a && !b)) && (!(c && !d))) = true ↔
      ((a = true → b = true) ∧ (c = true → d = true)) := by decide

/-! ## Claim theorems -/

/-- C2: in `mixed` mode, a candidate slice of the pattern's length matches iff
at every position an uppercase pattern byte faces an uppercase candidate byte
and a lowercase pattern byte faces a lowercase candidate byte, other pattern
bytes imposing no constraint; in particular suffix pattern "pu" rejects
"xxPU" and accepts "xxpu". -/
theorem c2_mixed_case_shape :
    (∀ pat cand : Str, cand.length = pat.length →
        ((OptimizedPattern.new pat "mixed").matchesMixedCase cand = true ↔
          ∀ i < pat.length,
            (isAsciiUppercase (pat.getD i 0) = true →
              isAsciiUppercase (cand.getD i 0) = true) ∧
            (isAsciiLowercase (pat.getD i 0) = true →
              isAsciiLowercase (cand.getD i 0) = true)))
    ∧ (OptimizedPattern.new (strBytes "pu") "mixed").matchesSuffix (strBytes "xxPU") = false
    ∧ (OptimizedPattern.new (strBytes "pu") "mixed").matchesSuffix (strBytes "xxpu") = true := by
  refine ⟨?_, by decide, by decide⟩
  intro pat cand h
  unfold OptimizedPattern.matchesMixedCase OptimizedPattern.new
  simp only [h, bne_self_eq_false, Bool.false_eq_true, if_false, List.all_eq_true,
    List.mem_range]
  exact forall_congr' fun i => imp_congr_right fun _ => shapeByte_iff _ _ _ _

/-- C2 witness: the positional characterization instantiated at pattern "Ab"
and candidate "Xy" (equal lengths). -/
theorem c2_mixed_case_shape_witness :
    (strBytes "Xy").length = (strBytes "Ab").length ∧
      ((OptimizedPattern.new (strBytes "Ab") "mixed").matchesMixedCase (strBytes "Xy") = true ↔
        ∀ i < (strBytes "Ab").length,
          (isAsciiUppercase ((strBytes "Ab").getD i 0) = true →
            isAsciiUppercase ((strBytes "Xy").getD i 0) = true) ∧
          (isAsciiLowercase ((strBytes "Ab").getD i 0) = true →
            isAsciiLowercase ((strBytes "Xy").getD i 0) = true)) :=
  ⟨by decide, c2_mixed_case_shape.1 (strBytes "Ab") (strBytes "Xy") (by decide)⟩

/-- C4: with `case_mode = "exact"`, the compiled prefix matcher computes
exactly Rust `starts_with` and the compiled suffix matcher computes exactly
Rust `ends_with`, so the case-sensitive bypass path and the compiled-matcher
path agree in exact mode. -/
theorem c4_exact_equals_bypass (pat cand : Str) :
    ((OptimizedPattern.new pat "exact").matches cand = rustStartsWith cand pat)
    ∧ ((OptimizedPattern.new pat "exact").matchesSuffix cand = rustEndsWith cand pat) := by
  constructor
  · rw [matches_exact_def, rustStartsWith]
    by_cases h : cand.length < pat.length
    · rw [if_pos h, isPrefixOf_eq_false_of_lt pat cand h]
    · rw [if_neg h, take_beq_eq_isPrefixOf]
  · rw [matchesSuffix_exact_def, rustEndsWith]
    by_cases h : cand.length < pat.length
    · rw [if_pos h, isSuffixOf_eq_false_of_lt pat cand h]
    · rw [if_neg h, drop_beq_eq_isSuffixOf]

/-- C5: a candidate strictly shorter than the compiled pattern is rejected by
both the prefix and the suffix matcher, in every case mode. -/
theorem c5_short_candidate_rejected (mode : String) (pat cand : Str)
    (h : cand.length < pat.length) :
    (OptimizedPattern.new pat mode).matches cand = false ∧
    (OptimizedPattern.new pat mode).matchesSuffix cand = false := by
  constructor
  · unfold OptimizedPattern.matches OptimizedPattern.new
    simp [h]
  · unfold OptimizedPattern.matchesSuffix OptimizedPattern.new
    simp [h]

/-- C5 witness: the fast reject at pattern "pump", candidate "ab", mode
"mixed". -/
theorem c5_short_candidate_rejected_witness :
    (strBytes "ab").length < (strBytes "pump").length ∧
      ((OptimizedPattern.new (strBytes "pump") "mixed").matches (strBytes "ab") = false ∧
        (OptimizedPattern.new (strBytes "pump") "mixed").matchesSuffix (strBytes "ab") = false) :=
  ⟨by decide,
    c5_short_candidate_rejected "mixed" (strBytes "pump") (strBytes "ab") (by decide)⟩

/-- C6: modes `upper` and `lower` produce identical results for both matchers,
and both amount to ASCII case-insensitive equality of the extracted slice
against the pattern literal (a too-short candidate yields `false` on both
sides, since the case-insensitive comparison also checks lengths). -/
theorem c6_upper_lower_same (pat cand : Str) :
    ((OptimizedPattern.new pat "upper").matches cand =
      (OptimizedPattern.new pat "lower").matches cand)
    ∧ ((OptimizedPattern.new pat "upper").matchesSuffix cand =
      (OptimizedPattern.new pat "lower").matchesSuffix cand)
    ∧ ((OptimizedPattern.new pat "upper").matches cand =
        eqIgnoreAsciiCase (cand.take pat.length) pat)
    ∧ ((OptimizedPattern.new pat "upper").matchesSuffix cand =
        eqIgnoreAsciiCase (cand.drop (cand.length - pat.length)) pat) := by
  refine ⟨rfl, rfl, ?_, ?_⟩
  · rw [matches_upper_def]
    by_cases h : cand.length < pat.length
    · rw [if_pos h, List.take_of_length_le (Nat.le_of_lt h)]
      unfold eqIgnoreAsciiCase
      simp [Nat.ne_of_lt h]
    · rw [if_neg h]
  · rw [matchesSuffix_upper_def]
    by_cases h : cand.length < pat.length
    · rw [if_pos h, Nat.sub_eq_zero_of_le (Nat.le_of_lt h), List.drop_zero]
      unfold eqIgnoreAsciiCase
      simp [Nat.ne_of_lt h]
    · rw [if_neg h]

/-- C7: every case-mode string other than "exact", "upper", "lower", "mixed"
takes the catch-all arm, which computes the same byte equality as mode
"exact", for both matchers; an unrecognized mode is not an error. -/
theorem c7_unrecognized_mode_is_exact (mode : String) (pat cand : Str)
    (h1 : mode ≠ "exact") (h2 : mode ≠ "upper") (h3 : mode ≠ "lower")
    (h4 : mode ≠ "mixed") :
    ((OptimizedPattern.new pat mode).matches cand =
      (OptimizedPattern.new pat "exact").matches cand)
    ∧ ((OptimizedPattern.new pat mode).matchesSuffix cand =
      (OptimizedPattern.new pat "exact").matchesSuffix cand) := by
  rw [matches_exact_def, matchesSuffix_exact_def]
  constructor
  · unfold OptimizedPattern.matches OptimizedPattern.new
    split <;> simp_all
  · unfold OptimizedPattern.matchesSuffix OptimizedPattern.new
    split <;> simp_all

/-- C7 witness: the unrecognized mode "fancy" behaves like "exact" at pattern
"pU", candidate "pUx". -/
theorem c7_unrecognized_mode_is_exact_witness :
    ((OptimizedPattern.new (strBytes "pU") "fancy").matches (strBytes "pUx") =
      (OptimizedPattern.new (strBytes "pU") "exact").matches (strBytes "pUx"))
    ∧ ((OptimizedPattern.new (strBytes "pU") "fancy").matchesSuffix (strBytes "pUx") =
      (OptimizedPattern.new (strBytes "pU") "exact").matchesSuffix (strBytes "pUx")) :=
  c7_unrecognized_mode_is_exact "fancy" (strBytes "pU") (strBytes "pUx")
    (by decide) (by decide) (by decide) (by decide)

/-- C10: the empty pattern matches every candidate, as a prefix and as a
suffix, in every case mode. -/
theorem c10_empty_pattern_matches_all (mode : String) (cand : Str) :
    (OptimizedPattern.new [] mode).matches cand = true ∧
    (OptimizedPattern.new [] mode).matchesSuffix cand = true := by
  constructor
  · unfold OptimizedPattern.matches OptimizedPattern.new
    simp only [List.length_nil, Nat.not_lt_zero, if_false, List.take_zero]
    split <;> simp [OptimizedPattern.matchesMixedCase, eqIgnoreAsciiCase]
  · unfold OptimizedPattern.matchesSuffix OptimizedPattern.new
    simp only [List.length_nil, Nat.not_lt_zero, if_false, Nat.sub_zero,
      List.drop_length]
    split <;> simp [OptimizedPattern.matchesMixedCase, eqIgnoreAsciiCase]

/-- C3: the worker loop accepts a candidate iff (no prefix was supplied OR the
prefix test of the active path holds) AND (the suffix is empty OR the suffix
test of the active path holds); an absent prefix and an empty suffix count as
not requested, on both the case-sensitive bypass and the compiled-matcher
path. -/
theorem c3_acceptance_decomposition (a : Args) (address : Str) :
    addressMatches a address = true ↔
      (a.pfx = none ∨ pfxTest a address = true) ∧
      (a.sfx = [] ∨ sfxTest a address = true) := by
  unfold addressMatches pfxTest sfxTest optimizedPfx optimizedSfx
  rcases hp : a.pfx with _ | p <;> by_cases hs : a.sfx = [] <;>
    by_cases hc : a.case_sensitive <;>
      simp [hp, hs, hc, Bool.and_eq_true]

/-- C8 counterexample: the configuration with a supplied empty-string prefix
and an empty suffix offers neither a non-empty prefix nor a non-empty suffix,
yet the validation at lines 255-259 does not reject it (`prefix.is_none()` is
false), and the search then accepts the very first candidate. -/
theorem c8_empty_string_pfx_passes :
    c8Args.pfx = some [] ∧ c8Args.sfx = [] ∧ validationRejects c8Args = false ∧
      addressMatches c8Args (strBytes "A") = true := by decide

/-- C8 amended: the run is rejected before any search work exactly when the
prefix option is absent and the suffix is empty; a supplied empty-string
prefix counts as given, so it passes validation, and any configuration with a
non-empty prefix or non-empty suffix also passes. -/
theorem c8_validation_iff (a : Args) :
    validationRejects a = true ↔ (a.pfx = none ∧ a.sfx = []) := by
  unfold validationRejects
  rcases hp : a.pfx with _ | p <;> rcases hs : a.sfx with _ | ⟨b, t⟩ <;>
    simp [hp, hs]

/-- C1: with `max_attempts = 5` and a generator that never matches, the worker
closure exits through the `local_attempts >= max_attempts` branch and returns
`true` to `find_any`, so `main` takes the `result.is_some()` branch at line
479 and prints the found-success banner instead of the exhausted report; the
shared attempts counter holds 0 (no batch of 50000 was flushed), and nothing
was saved. -/
theorem c1_exhaustion_prints_found_banner :
    workerRun c1Args c1Gen 5 0 0 =
      some { closureReturn := true, savedToJson := false
             globalAttempts := 0, foundAddress := none }
    ∧ mainPrintsFoundBanner (workerRun c1Args c1Gen 5 0 0) = true := by decide

/-- C9: two workers racing in the same window, each of whose first candidate
matches, both run their closure to its own match (the loop body checks no stop
flag), so `save_to_json` is invoked by both: two persistence calls in one run,
not exactly one. -/
theorem c9_double_save :
    (workerRun c9Args c9GenA 1 0 0).map WorkerResult.savedToJson = some true ∧
    (workerRun c9Args c9GenB 1 0 0).map WorkerResult.savedToJson = some true ∧
    countSaves [workerRun c9Args c9GenA 1 0 0, workerRun c9Args c9GenB 1 0 0] = 2 := by
  decide

end VanityAddress
